import Mathlib

/-
  A verification development for the PawPal planning engine
  (`src/pawpal_system.py`).

  Embedding conventions:
  - `datetime.time` values are modelled as minutes since midnight (`Nat`);
    all inputs in the repository are whole minutes.
  - Python `int` is `Int` (arbitrary precision).
  - The float factors of `Pet.adjust_duration` (0.7, 0.8, 1.1) are modelled
    as the exact rationals 7/10, 8/10, 11/10; `int(x)` on the nonnegative
    products is truncation toward zero (`Int.tdiv`).  Every concrete value
    appearing in the theorems below agrees with the Python float result.
  - `datetime.date.today().weekday()` is an ambient parameter `wd : Nat`.
  - `datetime.date.today()` (for recurrence) is an ambient day number
    `today : Nat`; `date.isoformat()` is modelled by `dayString`.
  - The mutable per-`Scheduler` score cache is threaded explicitly as an
    association list keyed by `task_id`, mirroring the Python dict.
  - Mutating methods return their updated receivers explicitly.
-/

namespace PawPal

/-- Minutes since midnight, standing for `datetime.time` on one day. -/
abbrev Time := Nat

/-- `TimeRange = Tuple[Time, Time]`. -/
abbrev TimeRange := Time × Time

/-- The `Task` dataclass.  The Python field `end` of related records is a
Lean keyword, so `endT` is used where needed; field names otherwise follow
the source.  The dataclass performs no validation of any field. -/
structure Task where
  task_id : String
  name : String
  category : String
  duration : Int
  priority : Int
  preferred_window : Option TimeRange
  deadline_time : Option Time
  frequency : String
  notes : Option String
  enabled : Bool
  completed : Bool
  due_date : Option Nat
deriving DecidableEq

/-- The `ScheduledTask` dataclass; `endT` models the Python field `end`. -/
structure ScheduledTask where
  task : Task
  start : Time
  endT : Time
  note : Option String
deriving DecidableEq

/-- The truthy preference flags read from `Owner.preferences`
(`p.get("no_grooming_weekdays")`, `p.get("avoid_late_walks")`); an absent
key reads falsy, so the dict is modelled by two booleans. -/
structure Prefs where
  no_grooming_weekdays : Bool
  avoid_late_walks : Bool
deriving DecidableEq

/-- The `Owner` dataclass (the spec's Steward). -/
structure Owner where
  owner_id : String
  name : String
  daily_time_available : Int
  preferred_windows : List TimeRange
  preferences : Prefs
  tasks : List Task
deriving DecidableEq

/-- The `Pet` dataclass (the spec's Subject); `age_years` is a Python
float, modelled as a rational.  The optional back-reference to the owner
is kept as the owner's identifier. -/
structure Pet where
  pet_id : String
  name : String
  species : String
  age_years : ℚ
  activity_level : String
  health_notes : Option String
  owner_ref : Option String
  tasks : List Task
deriving DecidableEq

/-- `Owner.available_minutes`: `int(self.daily_time_available)`. -/
def Owner.available_minutes (o : Owner) : Int :=
  o.daily_time_available

/-- `Owner.allows(task)`: preference gate; `wd` is today's weekday
(Monday = 0).  `t_end.hour > 21 or (t_end.hour == 21 and t_end.minute > 30)`
becomes the same test on `t / 60` and `t % 60`. -/
def Owner.allows (o : Owner) (t : Task) (wd : Nat) : Bool :=
  if o.preferences.no_grooming_weekdays && (t.category == "grooming") && decide (wd < 5) then
    false
  else if o.preferences.avoid_late_walks && (t.category == "walk") then
    let t_end : Option Time :=
      match t.preferred_window with
      | some w => some w.2
      | none => t.deadline_time
    match t_end with
    | some te => !(decide (te / 60 > 21) || (decide (te / 60 = 21) && decide (te % 60 > 30)))
    | none => true
  else
    true

/-- `Owner.window_options(task)`: intersections of the owner's preferred
windows with the task's preferred window; all owner windows when the task
has none; an intersection is kept only when `start < end`. -/
def Owner.window_options (o : Owner) (t : Task) : List TimeRange :=
  match t.preferred_window with
  | none => o.preferred_windows
  | some tw =>
    o.preferred_windows.filterMap fun ow =>
      let s := max ow.1 tw.1
      let e := min ow.2 tw.2
      if s < e then some (s, e) else none

/-- `Pet.is_task_recommended(task)`: `walk` requires a dog
(case-insensitive species match); everything else is recommended. -/
def Pet.is_task_recommended (p : Pet) (t : Task) : Bool :=
  if t.category == "walk" then p.species.toLower == "dog" else true

/-- `Pet.adjust_duration(task)`: multiplicative factors 0.7 (age ≥ 8) then
0.8 / 1.1 (activity level low / high), the product truncated toward zero
and clamped below by 1.  The float factors are the exact fractions here. -/
def Pet.adjust_duration (p : Pet) (t : Task) : Int :=
  let f1 : Int × Int := if 8 ≤ p.age_years then (7, 10) else (1, 1)
  let f2 : Int × Int :=
    if p.activity_level = "low" then (8, 10)
    else if p.activity_level = "high" then (11, 10)
    else (1, 1)
  max 1 (Int.tdiv (t.duration * (f1.1 * f2.1)) (f1.2 * f2.2))

/-- `Pet.add_task(task)`: append to the pet's task list. -/
def Pet.add_task (p : Pet) (t : Task) : Pet :=
  { p with tasks := p.tasks ++ [t] }

/-- `Task.score(owner, pet)`: priority × 10, +5 for a deadline, −100 when
the owner disallows, −50 when the pet does not recommend.  All quantities
are integral, so the float arithmetic is exact and modelled in `Int`. -/
def Task.score (t : Task) (o : Owner) (p : Pet) (wd : Nat) : Int :=
  let s1 : Int := t.priority * 10
  let s2 : Int := if t.deadline_time.isSome then s1 + 5 else s1
  let s3 : Int := if !(o.allows t wd) then s2 - 100 else s2
  if !(p.is_task_recommended t) then s3 - 50 else s3

/-- `Task.is_feasible(remaining_minutes)`: enabled and nominal duration
within the remaining minutes. -/
def Task.is_feasible (t : Task) (remaining : Int) : Bool :=
  t.enabled && decide (t.duration ≤ remaining)

/-- The model of `date.isoformat()` applied to a day number: some
injective textual rendering of the date; the decimal rendering is used. -/
def dayString (d : Nat) : String :=
  toString d

/-- Result of `Task.mark_complete`: the updated receiver, the (optionally)
updated owner and pet, and the created next occurrence, if any. -/
structure MarkOutcome where
  task : Task
  owner : Option Owner
  pet : Option Pet
  created : Option Task
deriving DecidableEq

/-- `Task.mark_complete(owner, pet, create_next)` with `today` the ambient
current date: marks the task completed; for `daily`/`weekly` frequency and
`create_next`, builds the next occurrence due in 1 (resp. 7) days with a
derived identifier, appends it to the supplied pet's and owner's task
lists, and returns it. -/
def Task.mark_complete (t : Task) (owner : Option Owner) (pet : Option Pet)
    (create_next : Bool) (today : Nat) : MarkOutcome :=
  let t' := { t with completed := true }
  if !create_next then
    ⟨t', owner, pet, none⟩
  else if !(t.frequency == "daily" || t.frequency == "weekly") then
    ⟨t', owner, pet, none⟩
  else
    let delta_days : Nat := if t.frequency == "daily" then 1 else 7
    let next_date := today + delta_days
    let new_id := t.task_id ++ "-next-" ++ dayString next_date
    let new_task : Task :=
      { t with task_id := new_id, completed := false, due_date := some next_date }
    let pet' := pet.map fun p => p.add_task new_task
    let owner' := owner.map fun o => { o with tasks := o.tasks ++ [new_task] }
    ⟨t', owner', pet', some new_task⟩

/-- The per-run score cache (`Scheduler.score_cache`), a dict keyed by
`task_id`. -/
abbrev Cache := List (String × Int)

/-- The `Scheduler` dataclass; `weights` is unused by the planning code
and kept only for shape. -/
structure Scheduler where
  strategy : String
  weights : List (String × ℚ)
  explain : Bool
  score_cache : Cache

/-- `Scheduler.get_score_cached(task, owner, pet)`: return the cached
score for `task.task_id`, computing and inserting it if absent. -/
def get_score_cached (c : Cache) (t : Task) (o : Owner) (p : Pet) (wd : Nat) :
    Int × Cache :=
  match c.lookup t.task_id with
  | some s => (s, c)
  | none =>
    let s := t.score o p wd
    (s, (t.task_id, s) :: c)

/-- The `scored` list of `rank_tasks`: `[(get_score_cached(t), t) for t in
tasks]`, threading the cache. -/
def buildScored (o : Owner) (p : Pet) (wd : Nat) :
    List Task → Cache → List (Int × Task) × Cache
  | [], c => ([], c)
  | t :: ts, c =>
    let r1 := get_score_cached c t o p wd
    let rest := buildScored o p wd ts r1.2
    ((r1.1, t) :: rest.1, rest.2)

/-- The comparator of `scored.sort(key=lambda x: x[0], reverse=True)`:
Python's sort is stable, and `reverse=True` keeps ties in input order, so
it equals a stable sort under "score at least as large goes first". -/
def scoreGE (a b : Int × Task) : Bool :=
  decide (b.1 ≤ a.1)

/-- `Scheduler.rank_tasks(owner, pet, tasks)`: score through the cache,
stable-sort descending by score, return the tasks. -/
def rank_tasks (o : Owner) (p : Pet) (wd : Nat) (tasks : List Task) (c : Cache) :
    List Task × Cache :=
  let sc := buildScored o p wd tasks c
  ((sc.1.mergeSort scoreGE).map fun x => x.2, sc.2)

/-- The placement step of `generate_plan` for a surviving task: first
window option (or the midnight fallback), end = start plus the adjusted
duration, taken as a time of day (`.time()` drops whole days: mod 1440). -/
def placeTask (o : Owner) (t : Task) (t_dur : Int) : ScheduledTask :=
  match o.window_options t with
  | w :: _ => ⟨t, w.1, (((w.1 : Int) + t_dur) % 1440).toNat, none⟩
  | [] => ⟨t, 0, (((0 : Int) + t_dur) % 1440).toNat, none⟩

/-- The greedy loop of `generate_plan` over the ranked tasks: returns the
scheduled list, the skipped list with reasons, and the final remainder. -/
def genLoop (o : Owner) (p : Pet) (wd : Nat) :
    List Task → Int → List ScheduledTask × List (Task × String) × Int
  | [], rem => ([], [], rem)
  | t :: ts, rem =>
    if !t.enabled then
      let r := genLoop o p wd ts rem
      (r.1, (t, "disabled") :: r.2.1, r.2.2)
    else if !(o.allows t wd) then
      let r := genLoop o p wd ts rem
      (r.1, (t, "owner preference disallows") :: r.2.1, r.2.2)
    else if !(p.is_task_recommended t) then
      let r := genLoop o p wd ts rem
      (r.1, (t, "not recommended for pet") :: r.2.1, r.2.2)
    else
      let t_dur := p.adjust_duration t
      if !(t.is_feasible rem) then
        let r := genLoop o p wd ts rem
        (r.1, (t, "not enough time remaining") :: r.2.1, r.2.2)
      else
        let st := placeTask o t t_dur
        let r := genLoop o p wd ts (rem - t_dur)
        (st :: r.1, r.2.1, r.2.2)

/-- `Scheduler.build_explanations(selected, skipped)`. -/
def build_explanations (selected : List Task) (skipped : List (Task × String)) :
    List String :=
  ("Selected " ++ toString selected.length ++ " tasks")
    :: selected.map (fun t => "- " ++ t.name ++ " (" ++ t.task_id ++ ")")
    ++ (if skipped.isEmpty then []
        else ("Skipped " ++ toString skipped.length ++ " tasks:")
          :: skipped.map fun x => "- " ++ x.1.name ++ " (" ++ x.1.task_id ++ "): " ++ x.2)

/-- The dict returned by `generate_plan`. -/
structure PlanResult where
  scheduled : List ScheduledTask
  skipped : List (Task × String)
  total_minutes : Int
  explanation : List String
deriving DecidableEq

/-- Full outcome of one `generate_plan` call: the plan, the scheduler's
cache afterwards, and the owner and pet afterwards (threaded explicitly so
that frame properties are statable). -/
structure GenOutcome where
  plan : PlanResult
  cache : Cache
  owner : Owner
  pet : Pet

/-- `Scheduler.generate_plan(owner, pet, tasks)`: rank, run the greedy
loop from the owner's available minutes, total = initial − remainder,
explanations only in explain mode.  No operation invoked writes to the
owner or the pet, so they are returned as received. -/
def generate_plan (sch : Scheduler) (o : Owner) (p : Pet) (wd : Nat)
    (tasks : List Task) : GenOutcome :=
  let rem0 := o.available_minutes
  let rk := rank_tasks o p wd tasks sch.score_cache
  let r := genLoop o p wd rk.1 rem0
  let expl := if sch.explain then build_explanations (r.1.map fun s => s.task) r.2.1 else []
  { plan :=
      { scheduled := r.1
        skipped := r.2.1
        total_minutes := o.available_minutes - r.2.2
        explanation := expl }
    cache := rk.2
    owner := o
    pet := p }

/-- The final value of the local `remainder` variable of one
`generate_plan` run. -/
def finalRemainder (sch : Scheduler) (o : Owner) (p : Pet) (wd : Nat)
    (tasks : List Task) : Int :=
  (genLoop o p wd (rank_tasks o p wd tasks sch.score_cache).1 o.available_minutes).2.2

/-- `%H:%M` formatting of a time of day (zero-padded). -/
def fmtTime (t : Time) : String :=
  (if t / 60 < 10 then "0" ++ toString (t / 60) else toString (t / 60))
    ++ ":"
    ++ (if t % 60 < 10 then "0" ++ toString (t % 60) else toString (t % 60))

/-- The strict-overlap test of `detect_conflicts` on two labelled
entries: `si < ej and sj < ei`.  All entries are combined with the same
reference day, so datetime order coincides with time-of-day order. -/
def overlapB (a b : String × ScheduledTask) : Bool :=
  decide (a.2.start < b.2.endT) && decide (b.2.start < a.2.endT)

/-- The warning message of `detect_conflicts` for one overlapping pair. -/
def conflictMsg (a b : String × ScheduledTask) : String :=
  "Conflict: " ++ a.1 ++ ":" ++ a.2.task.name
    ++ " (" ++ fmtTime a.2.start ++ "-" ++ fmtTime a.2.endT
    ++ ") overlaps " ++ b.1 ++ ":" ++ b.2.task.name
    ++ " (" ++ fmtTime b.2.start ++ "-" ++ fmtTime b.2.endT ++ ")"

/-- `Scheduler.detect_conflicts(scheduled)`: the double index loop
`for i, for j > i` emits one message per overlapping pair, in order. -/
def detect_conflicts : List (String × ScheduledTask) → List String
  | [] => []
  | e :: rest =>
    (rest.filterMap fun e2 => if overlapB e e2 then some (conflictMsg e e2) else none)
      ++ detect_conflicts rest

/-- All position pairs (i, j) with i < j of a list, in the order the
double loop of `detect_conflicts` visits them. -/
def pairsAfter : List α → List (α × α)
  | [] => []
  | x :: xs => (xs.map fun y => (x, y)) ++ pairsAfter xs

/-- A scheduler as constructed with the dataclass defaults: greedy
strategy, default weights, no explanations, empty score cache. -/
def sch0 : Scheduler :=
  ⟨"greedy", [("priority", 1), ("deadline", 3/2), ("preference_fit", 1/2)], false, []⟩

/-- Owner with 25 available minutes, no windows, no preference flags. -/
def c1Owner : Owner :=
  ⟨"o1", "Alex", 25, [], ⟨false, false⟩, []⟩

/-- Senior pet (age 8, factor 0.7), medium activity, cat. -/
def c1Pet : Pet :=
  ⟨"p1", "Mia", "cat", 8, "med", none, none, []⟩

/-- Enabled feeding task of nominal duration 30 (adjusted: 21). -/
def c1Task : Task :=
  ⟨"t1", "Feed", "feed", 30, 5, none, none, "daily", none, true, false, none⟩

/-- Owner with 30 available minutes, no windows, no preference flags. -/
def c2Owner : Owner :=
  ⟨"o2", "Sam", 30, [], ⟨false, false⟩, []⟩

/-- Young high-activity pet (factor 1.1). -/
def c2Pet : Pet :=
  ⟨"p2", "Rex", "cat", 1, "high", none, none, []⟩

/-- Enabled feeding task of nominal duration 30 (adjusted: 33). -/
def c2Task : Task :=
  ⟨"t2", "Feed", "feed", 30, 5, none, none, "daily", none, true, false, none⟩

/-- Steward of the end-to-end example: 60 minutes, window 07:00-09:00. -/
def c3Owner : Owner :=
  ⟨"o3", "Kim", 60, [(420, 540)], ⟨false, false⟩, []⟩

/-- Subject of the end-to-end example: young, medium activity (factor 1). -/
def c3Pet : Pet :=
  ⟨"p3", "Lux", "cat", 5, "med", none, none, []⟩

/-- Activity of the end-to-end example: duration 30, importance 5,
preferred window 07:30-08:30. -/
def c3Task : Task :=
  ⟨"t3", "Brush", "feed", 30, 5, some (450, 510), none, "daily", none, true, false, none⟩

/-- A malformed activity: duration 0 and a preferred window whose start
(09:00) is after its end (08:00). -/
def c4Bad : Task :=
  ⟨"t4", "Bad", "feed", 0, 1, some (540, 480), none, "daily", none, true, false, none⟩

/-- Owner used to plan with the malformed activity. -/
def c4Owner : Owner :=
  ⟨"o4", "Ana", 60, [], ⟨false, false⟩, []⟩

/-- Pet used to plan with the malformed activity. -/
def c4Pet : Pet :=
  ⟨"p4", "Kiwi", "cat", 5, "med", none, none, []⟩

/-- Pet aged exactly 8 (the age factor applies), medium activity. -/
def c5PetOld : Pet :=
  ⟨"p5a", "Old", "cat", 8, "med", none, none, []⟩

/-- Pet aged 5 (no age factor), medium activity. -/
def c5PetYoung : Pet :=
  ⟨"p5b", "Young", "cat", 5, "med", none, none, []⟩

/-- Task of nominal duration 1: both adjusted durations clamp to 1. -/
def c5Task : Task :=
  ⟨"t5", "Tiny", "feed", 1, 1, none, none, "daily", none, true, false, none⟩

/-- A labelled schedule entry 09:00-10:00. -/
def c6A : String × ScheduledTask :=
  ("x", ⟨c1Task, 540, 600, none⟩)

/-- A labelled schedule entry 10:00-11:00, touching `c6A` at 10:00. -/
def c6B : String × ScheduledTask :=
  ("y", ⟨c1Task, 600, 660, none⟩)

/-- A daily task used to exercise recurrence. -/
def c7Task : Task :=
  ⟨"t7", "Meds", "meds", 5, 9, none, some 480, "daily", some "with food", true, false, some 100⟩

/-- Owner receiving the recurrence's next occurrence. -/
def c7Owner : Owner :=
  ⟨"o7", "Lee", 120, [], ⟨false, false⟩, [c7Task]⟩

/-- Pet receiving the recurrence's next occurrence. -/
def c7Pet : Pet :=
  ⟨"p7", "Taz", "dog", 3, "med", none, none, [c7Task]⟩

/-- Owner whose only preferred window starts at 23:00. -/
def c10Owner : Owner :=
  ⟨"o10", "Noa", 200, [(1380, 1439)], ⟨false, false⟩, []⟩

/-- Young medium-activity pet (duration factor 1). -/
def c10Pet : Pet :=
  ⟨"p10", "Ivy", "cat", 5, "med", none, none, []⟩

/-- A 120-minute task: placed at 23:00, it crosses midnight. -/
def c10Task : Task :=
  ⟨"t10", "Sit", "feed", 120, 5, none, none, "daily", none, true, false, none⟩

/- ------------------------------------------------------------------ -/
/- Helper lemmas                                                      -/
/- ------------------------------------------------------------------ -/

/-- Ranking a single task returns that task, for any cache. -/
theorem rank_tasks_singleton (o : Owner) (p : Pet) (wd : Nat) (t : Task) (c : Cache) :
    (rank_tasks o p wd [t] c).1 = [t] := by
  simp [rank_tasks, buildScored, List.mergeSort_singleton]

/- ------------------------------------------------------------------ -/
/- Claim theorems                                                     -/
/- ------------------------------------------------------------------ -/

/-- C3: end to end, a steward with 60 available minutes and preferred
window 07:00-09:00 (no preference flags), a young medium-activity subject
(adjustment factor 1) and a single enabled recommended activity of
duration 30 with preferred window 07:30-08:30 produce a plan with exactly
one placement starting 07:30 (450) and ending 08:00 (480), total 30
minutes and an empty skipped list. -/
theorem claim_C3 :
    (generate_plan sch0 c3Owner c3Pet 0 [c3Task]).plan.scheduled
        = [⟨c3Task, 450, 480, none⟩] ∧
    (generate_plan sch0 c3Owner c3Pet 0 [c3Task]).plan.total_minutes = 30 ∧
    (generate_plan sch0 c3Owner c3Pet 0 [c3Task]).plan.skipped = [] := by
  have h := rank_tasks_singleton c3Owner c3Pet 0 c3Task sch0.score_cache
  refine ⟨?_, ?_, ?_⟩ <;> simp [generate_plan, h] <;> decide

/-- C9: `generate_plan` never mutates the steward or the subject; in the
embedding every invoked operation is read-only on the owner and the pet,
and the outcome's threaded owner and pet equal the inputs exactly. -/
theorem claim_C9 (sch : Scheduler) (o : Owner) (p : Pet) (wd : Nat) (tasks : List Task) :
    (generate_plan sch o p wd tasks).owner = o ∧ (generate_plan sch o p wd tasks).pet = p :=
  ⟨rfl, rfl⟩

/-- C1, counterexample: a gate-passing activity whose adjusted duration
(21) does not exceed the remaining budget (25) is nevertheless skipped
with reason "not enough time remaining", because the code's feasibility
test uses the nominal duration (30). -/
theorem claim_C1_counterexample :
    c1Task.enabled = true ∧
    c1Owner.allows c1Task 0 = true ∧
    c1Pet.is_task_recommended c1Task = true ∧
    c1Pet.adjust_duration c1Task ≤ c1Owner.available_minutes ∧
    (generate_plan sch0 c1Owner c1Pet 0 [c1Task]).plan.skipped
        = [(c1Task, "not enough time remaining")] ∧
    (generate_plan sch0 c1Owner c1Pet 0 [c1Task]).plan.scheduled = [] := by
  have h := rank_tasks_singleton c1Owner c1Pet 0 c1Task sch0.score_cache
  refine ⟨by decide, by decide, by decide, by decide, ?_, ?_⟩ <;>
    simp [generate_plan, h] <;> decide

/-- C1, amended: for an activity passing the disabled, steward-preference
and subject-recommendation gates, `generate_plan` skips it with reason
"not enough time remaining" if and only if its NOMINAL duration exceeds
the remaining budget at that point (the code's `is_feasible` test uses
`task.duration`, not the adjusted duration); otherwise it is placed and
the remaining budget is decremented by the ADJUSTED duration. -/
theorem claim_C1_amended (o : Owner) (p : Pet) (wd : Nat) (t : Task)
    (ts : List Task) (rem : Int)
    (h1 : t.enabled = true) (h2 : o.allows t wd = true)
    (h3 : p.is_task_recommended t = true) :
    (rem < t.duration →
      genLoop o p wd (t :: ts) rem =
        ((genLoop o p wd ts rem).1,
         (t, "not enough time remaining") :: (genLoop o p wd ts rem).2.1,
         (genLoop o p wd ts rem).2.2)) ∧
    (t.duration ≤ rem →
      genLoop o p wd (t :: ts) rem =
        (placeTask o t (p.adjust_duration t)
            :: (genLoop o p wd ts (rem - p.adjust_duration t)).1,
         (genLoop o p wd ts (rem - p.adjust_duration t)).2.1,
         (genLoop o p wd ts (rem - p.adjust_duration t)).2.2)) := by
  constructor
  · intro h
    simp [genLoop, h1, h2, h3, Task.is_feasible, not_le.mpr h]
  · intro h
    simp [genLoop, h1, h2, h3, Task.is_feasible, h]

/-- C1, witness: the amended step characterization applied to the
concrete counterexample configuration (budget 25, nominal duration 30). -/
theorem claim_C1_witness :
    genLoop c1Owner c1Pet 0 [c1Task] 25 =
      ([], [(c1Task, "not enough time remaining")], 25) :=
  (claim_C1_amended c1Owner c1Pet 0 c1Task [] 25
      (by decide) (by decide) (by decide)).1 (by decide)

/-- C4, counterexample: an activity with duration 0 and a preferred
window starting (09:00) at or after its end (08:00) is accepted by the
constructor with those exact field values, and `generate_plan` silently
tolerates it, placing it via the midnight fallback. -/
theorem claim_C4_counterexample :
    c4Bad.duration = 0 ∧
    c4Bad.preferred_window = some (540, 480) ∧
    (generate_plan sch0 c4Owner c4Pet 0 [c4Bad]).plan.scheduled
        = [⟨c4Bad, 0, 1, none⟩] ∧
    (generate_plan sch0 c4Owner c4Pet 0 [c4Bad]).plan.skipped = [] := by
  have h := rank_tasks_singleton c4Owner c4Pet 0 c4Bad sch0.score_cache
  refine ⟨by decide, by decide, ?_, ?_⟩ <;> simp [generate_plan, h] <;> decide

/-- C4, amended: construction performs no validation at all; the `Task`
constructor is total and stores any duration and any preferred window
unchanged, including non-positive durations and windows with start at or
after end, which planning then tolerates silently. -/
theorem claim_C4_amended (id name cat : String) (dur prio : Int)
    (w : Option TimeRange) (dl : Option Time) (freq : String)
    (nts : Option String) (en cm : Bool) (dd : Option Nat) :
    (Task.mk id name cat dur prio w dl freq nts en cm dd).duration = dur ∧
    (Task.mk id name cat dur prio w dl freq nts en cm dd).preferred_window = w :=
  ⟨rfl, rfl⟩

/-- Truncating division of a nonpositive numerator by a nonnegative
denominator is nonpositive. -/
theorem tdiv_nonpos_of_nonpos (a b : Int) (ha : a ≤ 0) (hb : 0 ≤ b) :
    a.tdiv b ≤ 0 := by
  have h : a.tdiv b = -((-a).tdiv b) := by
    rw [Int.neg_tdiv]
    ring
  rw [h]
  simpa using Int.tdiv_nonneg (neg_nonneg.mpr ha) hb

/-- Monotonicity of the clamped truncated product `max 1 ((d * n) tdiv m)`
in the fraction `n / m`. -/
theorem tdiv_max_one_mono (d n1 m1 n2 m2 : Int) (hm1 : 0 < m1) (hm2 : 0 < m2)
    (hn1 : 0 ≤ n1) (h : n1 * m2 ≤ n2 * m1) :
    max 1 (Int.tdiv (d * n1) m1) ≤ max 1 (Int.tdiv (d * n2) m2) := by
  have hn2 : 0 ≤ n2 := by nlinarith
  rcases le_or_lt 0 d with hd | hd
  · have ha1 : 0 ≤ d * n1 := mul_nonneg hd hn1
    have ha2 : 0 ≤ d * n2 := mul_nonneg hd hn2
    rw [Int.tdiv_eq_ediv ha1 hm1.le, Int.tdiv_eq_ediv ha2 hm2.le]
    refine max_le_max (le_refl 1) ?_
    have e1 : d * n1 / m1 = m2 * (d * n1) / (m2 * m1) :=
      (Int.mul_ediv_mul_of_pos _ _ hm2).symm
    have e2 : d * n2 / m2 = m1 * (d * n2) / (m1 * m2) :=
      (Int.mul_ediv_mul_of_pos _ _ hm1).symm
    rw [e1, e2, mul_comm m2 m1]
    refine Int.ediv_le_ediv (by positivity) ?_
    nlinarith [mul_le_mul_of_nonneg_left h hd]
  · have ha1 : d * n1 ≤ 0 := mul_nonpos_of_nonpos_of_nonneg hd.le hn1
    have ha2 : d * n2 ≤ 0 := mul_nonpos_of_nonpos_of_nonneg hd.le hn2
    have t1 : Int.tdiv (d * n1) m1 ≤ 1 :=
      le_trans (tdiv_nonpos_of_nonpos _ _ ha1 hm1.le) zero_le_one
    have t2 : Int.tdiv (d * n2) m2 ≤ 1 :=
      le_trans (tdiv_nonpos_of_nonpos _ _ ha2 hm2.le) zero_le_one
    rw [max_eq_left t1, max_eq_left t2]

/-- C5, counterexample: for the one-minute activity, the adjusted
duration is 1 for a subject of age 8 and also 1 for a subject of age 5
(medium activity in both cases), so the strict decrease claimed for
age ≥ 8 fails. -/
theorem claim_C5_counterexample :
    c5PetOld.age_years = 8 ∧ c5PetYoung.age_years = 5 ∧
    c5PetOld.activity_level = c5PetYoung.activity_level ∧
    c5PetOld.adjust_duration c5Task = 1 ∧
    c5PetYoung.adjust_duration c5Task = 1 ∧
    ¬(c5PetOld.adjust_duration c5Task < c5PetYoung.adjust_duration c5Task) := by
  decide

/-- C5, amended: holding the activity level fixed (and for every
activity), the adjusted duration computed for a subject of age at least 8
is at most — not strictly less than — the adjusted duration for a subject
of age below 8; equality occurs, e.g. at nominal duration 1, because of
the floor and the clamp to a 1-minute minimum. -/
theorem claim_C5_amended (p1 p2 : Pet) (t : Task)
    (h1 : 8 ≤ p1.age_years) (h2 : p2.age_years < 8)
    (h3 : p1.activity_level = p2.activity_level) :
    p1.adjust_duration t ≤ p2.adjust_duration t := by
  simp only [Pet.adjust_duration, if_pos h1, if_neg (not_le.mpr h2), h3]
  by_cases hl : p2.activity_level = "low"
  · rw [if_pos hl]
    exact tdiv_max_one_mono t.duration _ _ _ _ (by norm_num) (by norm_num)
      (by norm_num) (by norm_num)
  · rw [if_neg hl]
    by_cases hh : p2.activity_level = "high"
    · rw [if_pos hh]
      exact tdiv_max_one_mono t.duration _ _ _ _ (by norm_num) (by norm_num)
        (by norm_num) (by norm_num)
    · rw [if_neg hh]
      exact tdiv_max_one_mono t.duration _ _ _ _ (by norm_num) (by norm_num)
        (by norm_num) (by norm_num)

/-- C5, witness: the amended inequality at the concrete pets of ages 8
and 5 and the one-minute task, where it holds with equality. -/
theorem claim_C5_witness :
    c5PetOld.adjust_duration c5Task ≤ c5PetYoung.adjust_duration c5Task :=
  claim_C5_amended c5PetOld c5PetYoung c5Task (by decide) (by decide) (by decide)

/-- Placement preserves the task being placed. -/
theorem placeTask_task (o : Owner) (t : Task) (d : Int) : (placeTask o t d).task = t := by
  rcases hw : o.window_options t with _ | ⟨w, ws⟩ <;> simp [placeTask, hw]

/-- Loop invariant: the adjusted durations of the scheduled tasks sum to
the initial budget minus the final remainder. -/
theorem genLoop_sum (o : Owner) (p : Pet) (wd : Nat) (ts : List Task) :
    ∀ rem : Int,
      ((genLoop o p wd ts rem).1.map fun s => p.adjust_duration s.task).sum
        = rem - (genLoop o p wd ts rem).2.2 := by
  induction ts with
  | nil => intro rem; simp [genLoop]
  | cons t ts ih =>
    intro rem
    simp only [genLoop]
    split_ifs with e1 e2 e3 e4
    · simpa using ih rem
    · simpa using ih rem
    · simpa using ih rem
    · simpa using ih rem
    · simp only [List.map_cons, List.sum_cons, placeTask_task]
      have h := ih (rem - p.adjust_duration t)
      rw [h]
      ring

/-- Loop invariant: the remainder stays nonnegative as long as every
task's adjusted duration is at most its nominal duration (the feasibility
test compares the nominal duration to the remainder). -/
theorem genLoop_rem_nonneg (o : Owner) (p : Pet) (wd : Nat) (ts : List Task) :
    ∀ rem : Int, (∀ t ∈ ts, p.adjust_duration t ≤ t.duration) → 0 ≤ rem →
      0 ≤ (genLoop o p wd ts rem).2.2 := by
  induction ts with
  | nil => intro rem _ h; simpa [genLoop] using h
  | cons t ts ih =>
    intro rem hadj hrem
    have htail : ∀ x ∈ ts, p.adjust_duration x ≤ x.duration :=
      fun x hx => hadj x (List.mem_cons_of_mem _ hx)
    simp only [genLoop]
    split_ifs with e1 e2 e3 e4
    · simpa using ih rem htail hrem
    · simpa using ih rem htail hrem
    · simpa using ih rem htail hrem
    · simpa using ih rem htail hrem
    · have hfeas : t.is_feasible rem = true := by
        rcases h : t.is_feasible rem with _ | _
        · exact absurd (by simp [h]) e4
        · rfl
      have hdur : t.duration ≤ rem := by
        have := hfeas
        simp [Task.is_feasible] at this
        exact this.2
      have hstep : 0 ≤ rem - p.adjust_duration t := by
        have := hadj t (List.mem_cons_self _ _)
        linarith
      simpa using ih (rem - p.adjust_duration t) htail hstep

/-- The tasks carried by the scored list are exactly the input tasks. -/
theorem buildScored_map_snd (o : Owner) (p : Pet) (wd : Nat) (ts : List Task) :
    ∀ c : Cache, ((buildScored o p wd ts c).1.map fun x => x.2) = ts := by
  induction ts with
  | nil => intro c; simp [buildScored]
  | cons t ts ih => intro c; simp [buildScored, ih]

/-- `rank_tasks` returns a permutation of its input, for any cache. -/
theorem rank_tasks_perm (o : Owner) (p : Pet) (wd : Nat) (tasks : List Task) (c : Cache) :
    (rank_tasks o p wd tasks c).1.Perm tasks := by
  have h1 : ((buildScored o p wd tasks c).1.mergeSort scoreGE).Perm
      (buildScored o p wd tasks c).1 := List.mergeSort_perm _ _
  have h2 := h1.map fun x : Int × Task => x.2
  rw [buildScored_map_snd] at h2
  simpa [rank_tasks] using h2

/-- C2, counterexample: with 30 available minutes and a single 30-minute
activity for a young high-activity subject, the feasibility test passes
on the nominal duration but the budget is charged the adjusted duration
33, so `total_minutes` (33) exceeds the steward's available minutes (30),
refuting `total_minutes ≤ steward.availableMinutes()`. -/
theorem claim_C2_counterexample :
    (generate_plan sch0 c2Owner c2Pet 0 [c2Task]).plan.total_minutes = 33 ∧
    c2Owner.available_minutes = 30 ∧
    ¬((generate_plan sch0 c2Owner c2Pet 0 [c2Task]).plan.total_minutes
        ≤ c2Owner.available_minutes) := by
  have h := rank_tasks_singleton c2Owner c2Pet 0 c2Task sch0.score_cache
  refine ⟨?_, by decide, ?_⟩ <;> simp [generate_plan, h] <;> decide

/-- C2, amended: for every steward, subject and activity list, the sum of
the adjusted durations of the scheduled activities equals
`Plan.total_minutes`, which equals the steward's initial available
minutes minus the final remaining budget; the additional bound
`total_minutes ≤ steward.availableMinutes()` holds provided the steward's
available minutes are nonnegative and no activity's adjusted duration
exceeds its nominal duration (it fails otherwise, since feasibility is
checked against the nominal duration while the budget is charged the
adjusted one). -/
theorem claim_C2_amended (sch : Scheduler) (o : Owner) (p : Pet) (wd : Nat)
    (tasks : List Task) :
    (((generate_plan sch o p wd tasks).plan.scheduled.map
          fun s => p.adjust_duration s.task).sum
        = (generate_plan sch o p wd tasks).plan.total_minutes
      ∧ (generate_plan sch o p wd tasks).plan.total_minutes
        = o.available_minutes - finalRemainder sch o p wd tasks)
    ∧ (0 ≤ o.daily_time_available →
       (∀ t ∈ tasks, p.adjust_duration t ≤ t.duration) →
       (generate_plan sch o p wd tasks).plan.total_minutes ≤ o.available_minutes) := by
  refine ⟨⟨?_, rfl⟩, ?_⟩
  · exact genLoop_sum o p wd (rank_tasks o p wd tasks sch.score_cache).1 o.available_minutes
  · intro h0 hadj
    have hperm := rank_tasks_perm o p wd tasks sch.score_cache
    have hr : 0 ≤ (genLoop o p wd (rank_tasks o p wd tasks sch.score_cache).1
        o.available_minutes).2.2 :=
      genLoop_rem_nonneg o p wd _ o.available_minutes
        (fun t ht => hadj t (hperm.subset ht)) h0
    show o.available_minutes
        - (genLoop o p wd (rank_tasks o p wd tasks sch.score_cache).1
            o.available_minutes).2.2 ≤ o.available_minutes
    linarith

/-- C2, witness: the amended property at the end-to-end configuration,
where the adjustment factor is 1 and the bound holds. -/
theorem claim_C2_witness :
    (generate_plan sch0 c3Owner c3Pet 0 [c3Task]).plan.total_minutes
      ≤ c3Owner.available_minutes :=
  (claim_C2_amended sch0 c3Owner c3Pet 0 [c3Task]).2 (by decide) (by decide)

/-- Every scheduled entry's end time is its start time plus the adjusted
duration of its task, reduced modulo 24 hours. -/
theorem genLoop_end_mod (o : Owner) (p : Pet) (wd : Nat) (ts : List Task) :
    ∀ (rem : Int) (s : ScheduledTask), s ∈ (genLoop o p wd ts rem).1 →
      s.endT = (((s.start : Int) + p.adjust_duration s.task) % 1440).toNat := by
  induction ts with
  | nil => intro rem s h; simp [genLoop] at h
  | cons t ts ih =>
    intro rem s hs
    simp only [genLoop] at hs
    split_ifs at hs with e1 e2 e3 e4
    · exact ih rem s (by simpa using hs)
    · exact ih rem s (by simpa using hs)
    · exact ih rem s (by simpa using hs)
    · exact ih rem s (by simpa using hs)
    · simp only [List.mem_cons] at hs
      rcases hs with h | h
      · subst h
        rcases hw : o.window_options t with _ | ⟨w, ws⟩ <;> simp [placeTask, hw]
      · exact ih _ s h

/-- C10: for every placed activity the `ScheduledActivity` end
time-of-day equals the start plus the adjusted duration reduced modulo 24
hours (`.time()` after adding a timedelta drops whole days); and for a
window starting late enough (23:00, duration 120) the returned end (01:00)
is earlier than the start, so scheduled intervals need not satisfy
start < end. -/
theorem claim_C10 :
    (∀ (sch : Scheduler) (o : Owner) (p : Pet) (wd : Nat) (tasks : List Task)
        (s : ScheduledTask),
        s ∈ (generate_plan sch o p wd tasks).plan.scheduled →
        s.endT = (((s.start : Int) + p.adjust_duration s.task) % 1440).toNat) ∧
    ((generate_plan sch0 c10Owner c10Pet 0 [c10Task]).plan.scheduled
        = [⟨c10Task, 1380, 60, none⟩] ∧ (60 : Nat) < 1380) := by
  constructor
  · intro sch o p wd tasks s hs
    exact genLoop_end_mod o p wd _ _ s hs
  · have h := rank_tasks_singleton c10Owner c10Pet 0 c10Task sch0.score_cache
    refine ⟨?_, by decide⟩
    simp [generate_plan, h]
    decide

/-- C10, witness: the universal end-time law applied to the concrete
midnight-crossing placement. -/
theorem claim_C10_witness :
    (⟨c10Task, 1380, 60, none⟩ : ScheduledTask)
        ∈ (generate_plan sch0 c10Owner c10Pet 0 [c10Task]).plan.scheduled ∧
    (60 : Nat) = (((1380 : Int) + c10Pet.adjust_duration c10Task) % 1440).toNat := by
  have h := rank_tasks_singleton c10Owner c10Pet 0 c10Task sch0.score_cache
  have hmem : (⟨c10Task, 1380, 60, none⟩ : ScheduledTask)
      ∈ (generate_plan sch0 c10Owner c10Pet 0 [c10Task]).plan.scheduled := by
    simp [generate_plan, h]
    decide
  exact ⟨hmem, claim_C10.1 sch0 c10Owner c10Pet 0 [c10Task] _ hmem⟩

/-- The inner loop of `detect_conflicts` over one head entry equals a
filter-and-map over the pairs formed with that head. -/
theorem filterMap_pairs (e : String × ScheduledTask)
    (rest : List (String × ScheduledTask)) :
    (rest.filterMap fun e2 => if overlapB e e2 then some (conflictMsg e e2) else none)
      = ((rest.map fun y => (e, y)).filter fun q => overlapB q.1 q.2).map
          fun q => conflictMsg q.1 q.2 := by
  induction rest with
  | nil => simp
  | cons b bs ih => by_cases h : overlapB e b <;> simp [h, ih]

/-- C6: `detect_conflicts` (all times on one reference day) emits exactly
one warning message per unordered pair of entries satisfying
`startA < endB` and `startB < endA` — its output is precisely the
map of the message constructor over the strictly overlapping position
pairs — and a pair whose intervals merely touch (`endA = startB`) is
never flagged.  The embedding is a pure function of its input, which is
therefore not mutated. -/
theorem claim_C6 :
    (∀ l : List (String × ScheduledTask),
      detect_conflicts l
        = ((pairsAfter l).filter fun q => overlapB q.1 q.2).map
            fun q => conflictMsg q.1 q.2) ∧
    (∀ a b : String × ScheduledTask, a.2.endT = b.2.start → overlapB a b = false) := by
  constructor
  · intro l
    induction l with
    | nil => simp [detect_conflicts, pairsAfter]
    | cons e rest ih =>
      simp only [detect_conflicts, pairsAfter, List.filter_append, List.map_append,
        ih, filterMap_pairs]
  · intro a b h
    simp [overlapB, ← h]

/-- C6, witness: entries 09:00-10:00 and 10:00-11:00 touch at 10:00 and
are not flagged. -/
theorem claim_C6_witness :
    c6A.2.endT = c6B.2.start ∧ overlapB c6A c6B = false :=
  ⟨rfl, claim_C6.2 c6A c6B rfl⟩

/-- C7: completing a daily activity with `create_next = true` and both a
steward and a subject supplied yields a fresh activity due tomorrow, not
completed, equal to the original in every copied field, with a distinct
identifier; it is appended to both collections, and the original is left
completed with nothing removed from either collection. -/
theorem claim_C7 (t : Task) (o : Owner) (p : Pet) (today : Nat)
    (h : t.frequency = "daily") :
    ∃ nt : Task,
      (t.mark_complete (some o) (some p) true today).created = some nt ∧
      nt.due_date = some (today + 1) ∧
      nt.completed = false ∧
      nt.name = t.name ∧ nt.category = t.category ∧ nt.duration = t.duration ∧
      nt.priority = t.priority ∧ nt.preferred_window = t.preferred_window ∧
      nt.deadline_time = t.deadline_time ∧ nt.frequency = t.frequency ∧
      nt.notes = t.notes ∧ nt.enabled = t.enabled ∧
      nt.task_id ≠ t.task_id ∧
      (t.mark_complete (some o) (some p) true today).owner
        = some { o with tasks := o.tasks ++ [nt] } ∧
      (t.mark_complete (some o) (some p) true today).pet
        = some { p with tasks := p.tasks ++ [nt] } ∧
      (t.mark_complete (some o) (some p) true today).task
        = { t with completed := true } ∧
      (∀ x ∈ o.tasks, x ∈ ({ o with tasks := o.tasks ++ [nt] } : Owner).tasks) ∧
      (∀ x ∈ p.tasks, x ∈ ({ p with tasks := p.tasks ++ [nt] } : Pet).tasks) := by
  refine ⟨{ t with
      task_id := t.task_id ++ "-next-" ++ dayString (today + 1)
      completed := false
      due_date := some (today + 1) }, ?_⟩
  have key : t.mark_complete (some o) (some p) true today =
      ⟨{ t with completed := true },
       some { o with tasks := o.tasks ++
          [{ t with
              task_id := t.task_id ++ "-next-" ++ dayString (today + 1)
              completed := false
              due_date := some (today + 1) }] },
       some { p with tasks := p.tasks ++
          [{ t with
              task_id := t.task_id ++ "-next-" ++ dayString (today + 1)
              completed := false
              due_date := some (today + 1) }] },
       some { t with
          task_id := t.task_id ++ "-next-" ++ dayString (today + 1)
          completed := false
          due_date := some (today + 1) }⟩ := by
    simp [Task.mark_complete, h, Pet.add_task]
  rw [key]
  have hid : t.task_id ++ "-next-" ++ dayString (today + 1) ≠ t.task_id := by
    intro heq
    have hlen := congrArg String.length heq
    rw [String.length_append, String.length_append] at hlen
    have h6 : ("-next-" : String).length = 6 := rfl
    omega
  refine ⟨rfl, rfl, rfl, rfl, rfl, rfl, rfl, rfl, rfl, rfl, rfl, rfl, hid,
    rfl, rfl, rfl, ?_, ?_⟩
  · intro x hx
    exact List.mem_append_left _ hx
  · intro x hx
    exact List.mem_append_left _ hx

/-- C7, witness: the recurrence property at the concrete daily task and
its owner and pet, on day 100. -/
theorem claim_C7_witness :
    ∃ nt : Task,
      (c7Task.mark_complete (some c7Owner) (some c7Pet) true 100).created = some nt ∧
      nt.due_date = some 101 :=
  match claim_C7 c7Task c7Owner c7Pet 100 rfl with
  | ⟨nt, h1, h2, _⟩ => ⟨nt, h1, h2⟩

/-- Scoring through a cache with no entry for any of the tasks (and
pairwise distinct identifiers) records exactly the scorer's values. -/
theorem buildScored_fresh (o : Owner) (p : Pet) (wd : Nat) (ts : List Task) :
    ∀ c : Cache, (∀ t ∈ ts, c.lookup t.task_id = none) →
      (ts.map Task.task_id).Nodup →
      (buildScored o p wd ts c).1 = ts.map fun t => (t.score o p wd, t) := by
  induction ts with
  | nil => intro c _ _; simp [buildScored]
  | cons t ts ih =>
    intro c hc hnd
    have hct : c.lookup t.task_id = none := hc t (List.mem_cons_self _ _)
    have hnd1 : t.task_id ∉ ts.map Task.task_id := (List.nodup_cons.mp hnd).1
    have hnd2 : (ts.map Task.task_id).Nodup := (List.nodup_cons.mp hnd).2
    have hc' : ∀ x ∈ ts, ((t.task_id, t.score o p wd) :: c).lookup x.task_id = none := by
      intro x hx
      have hne : (x.task_id == t.task_id) = false := by
        simp only [beq_eq_false_iff_ne, ne_eq]
        intro heq
        exact hnd1 (heq ▸ List.mem_map_of_mem Task.task_id hx)
      simp [List.lookup, hne, hc x (List.mem_cons_of_mem _ hx)]
    simp only [buildScored, get_score_cached, hct]
    simp [ih _ hc' hnd2]

/-- The comparator of the descending sort is transitive. -/
theorem scoreGE_trans (a b c : Int × Task) :
    scoreGE a b = true → scoreGE b c = true → scoreGE a c = true := by
  simp only [scoreGE, decide_eq_true_eq]
  exact fun h1 h2 => le_trans h2 h1

/-- The comparator of the descending sort is total. -/
theorem scoreGE_total (a b : Int × Task) : (scoreGE a b || scoreGE b a) = true := by
  simp only [scoreGE, Bool.or_eq_true, decide_eq_true_eq]
  exact le_total b.1 a.1

/-- C8: with a fresh (empty) score cache and pairwise distinct activity
identifiers — the data model's uniqueness invariant — `rank_tasks`
returns a permutation of its input whose scores, as computed by the
scorer for that steward and subject, are non-increasing from first to
last. -/
theorem claim_C8 (o : Owner) (p : Pet) (wd : Nat) (tasks : List Task)
    (hids : (tasks.map Task.task_id).Nodup) :
    (rank_tasks o p wd tasks []).1.Perm tasks ∧
    List.Pairwise (fun a b : Task => b.score o p wd ≤ a.score o p wd)
      (rank_tasks o p wd tasks []).1 := by
  refine ⟨rank_tasks_perm o p wd tasks [], ?_⟩
  have hfresh : (buildScored o p wd tasks []).1 = tasks.map fun t => (t.score o p wd, t) :=
    buildScored_fresh o p wd tasks [] (by simp) hids
  have hsorted : List.Pairwise (fun a b => scoreGE a b = true)
      ((buildScored o p wd tasks []).1.mergeSort scoreGE) :=
    List.sorted_mergeSort scoreGE_trans scoreGE_total _
  have hkey : ∀ q ∈ (buildScored o p wd tasks []).1.mergeSort scoreGE,
      q.1 = q.2.score o p wd := by
    intro q hq
    have hmem : q ∈ (buildScored o p wd tasks []).1 :=
      (List.mergeSort_perm _ _).subset hq
    rw [hfresh] at hmem
    rcases List.mem_map.mp hmem with ⟨x, _, hx⟩
    rw [← hx]
  show List.Pairwise (fun a b : Task => b.score o p wd ≤ a.score o p wd)
    (((buildScored o p wd tasks []).1.mergeSort scoreGE).map fun x => x.2)
  rw [List.pairwise_map]
  refine hsorted.imp_of_mem ?_
  intro a b ha hb hab
  have h1 := hkey a ha
  have h2 := hkey b hb
  simp only [scoreGE, decide_eq_true_eq] at hab
  rw [h1, h2] at hab
  exact hab

/-- C8, witness: ranking the singleton end-to-end activity list. -/
theorem claim_C8_witness :
    (rank_tasks c3Owner c3Pet 0 [c3Task] []).1.Perm [c3Task] ∧
    List.Pairwise (fun a b : Task => b.score c3Owner c3Pet 0 ≤ a.score c3Owner c3Pet 0)
      (rank_tasks c3Owner c3Pet 0 [c3Task] []).1 :=
  claim_C8 c3Owner c3Pet 0 [c3Task] (by decide)

end PawPal
